import Mathlib

/-!
Shallow embedding of the versioning coordination logic of the
nautobot version-control plugin: the auto-commit middleware
(`src/dolt/middleware.py`), the global-state database router
(`src/dolt/routers.py`) and the diff engine (`src/dolt/diffs.py`).

Machine state that in the source lives in Django objects (requests,
sessions, signal registries, ORM querysets) is made explicit; the
functions below mirror the Python control flow line by line.
-/

namespace Dolt

/-- Constant from `dolt/constants.py` (module not included in the sources;
the exact string value is irrelevant to every property proved here).
The primary/default branch name. -/
def DOLT_DEFAULT_BRANCH : String := "main"

/-- Constant from `dolt/constants.py`: the session/header key under which
the active branch name is stored. -/
def DOLT_BRANCH_KEYWORD : String := "branch"

/-- Constant from `dolt/constants.py`: the alias of the global (non
branch-scoped) database connection, returned by the router. -/
def GLOBAL_DB : String := "global"

/-- Test that `pat` starts `l` (char-by-char comparison). -/
def leadsWith : List Char → List Char → Bool
  | [], _ => true
  | _ :: _, [] => false
  | c :: cs, d :: ds => c == d && leadsWith cs ds

/-- Test that `pat` occurs as a contiguous substring of `l`
(the Python `in` operator on strings). -/
def listContainsSub (pat l : List Char) : Bool :=
  l.tails.any (fun t => leadsWith pat t)

/-- A Django HTTP request, restricted to the parts the middleware reads:
the URL path, the branch entry of the session dict, the branch header,
and the acting user. -/
structure Request where
  path : String
  /-- Entry `request.session[DOLT_BRANCH_KEYWORD]`, `none` when the key is absent. -/
  sessionBranch : Option String
  /-- Entry `request.headers[DOLT_BRANCH_KEYWORD]`, `none` when the key is absent. -/
  headerBranch : Option String
  user : String
  deriving Repr, DecidableEq

/-- Embeds `is_health_check` (middleware.py line 184):
the test `"/health" in request.path`. -/
def is_health_check (r : Request) : Bool :=
  listContainsSub "/health".data r.path.data

/-- Embeds `branch_from_request` (middleware.py lines 176-181): session entry
first, then header, then the default branch. -/
def branch_from_request (r : Request) : String :=
  match r.sessionBranch with
  | some b => b
  | none =>
    match r.headerBranch with
    | some b => b
    | none => DOLT_DEFAULT_BRANCH

/-- Outcome of `DoltBranchMiddleware.get_branch` (middleware.py lines
67-80): either a `Branch` (identified by its name/pk) together with the
warnings surfaced and the possibly updated request, or an uncaught
`ObjectDoesNotExist` exception. -/
inductive GetBranchResult where
  | ok (branch : String) (warnings : List String) (request : Request)
  | raised (exn : String)
  deriving Repr, DecidableEq

/-- Embeds `Branch.objects.get(pk=requested)` against the `dolt_branches` table,
modelled by the list of branch names present in it. -/
def branchObjectsGet (table : List String) (requested : String) :
    Except String String :=
  if table.contains requested then .ok requested
  else .error "ObjectDoesNotExist"

/-- Embeds `DoltBranchMiddleware.get_branch` (middleware.py lines 67-80): look
the requested branch up; on `ObjectDoesNotExist` warn, pin the session to
the default branch and look that up instead (a second failure escapes). -/
def get_branch (table : List String) (r : Request) : GetBranchResult :=
  let requested := branch_from_request r
  match branchObjectsGet table requested with
  | .ok b => .ok b [] r
  | .error _ =>
    let warning :=
      "<div class=\x22text-center\x22>branch not found: " ++ requested ++ "</div>"
    let r' := { r with sessionBranch := some DOLT_DEFAULT_BRANCH }
    match branchObjectsGet table DOLT_DEFAULT_BRANCH with
    | .ok b => .ok b [warning] r'
    | .error e => .raised e

/-! ### AutoDoltCommit (middleware.py lines 98-173) -/

/-- The parts of a Django model instance that `_handle_update` inspects:
its classification (`is_dolt_model(type(instance))`,
`type(instance) == ObjectChange`), its `str()` and its verbose name. -/
structure Instance where
  isDoltModel : Bool
  isObjectChange : Bool
  str : String
  verboseName : String
  deriving Repr, DecidableEq

/-- The keyword arguments a `post_save` / `m2m_changed` signal delivers,
restricted to the keys `_handle_update` reads: `created` (`none` when the
key is absent, as in m2m events), `action`, and `pk_set` (empty list for
a falsy set). -/
structure UpdateKwargs where
  created : Option Bool
  action : Option String
  pkSet : List Nat
  deriving Repr, DecidableEq

/-- Mutable state of an `AutoDoltCommit` context manager
(middleware.py lines 103-108). -/
structure AutoDoltCommit where
  request : Request
  branch : String
  commit : Bool
  changes : List String
  instances : List String
  deriving Repr, DecidableEq

/-- Embeds `AutoDoltCommit.__init__` (middleware.py lines 103-108). -/
def AutoDoltCommit.init (r : Request) (branch : String) : AutoDoltCommit :=
  { request := r, branch := branch, commit := false, changes := [], instances := [] }

/-- Embeds `AutoDoltCommit.change_msg_for_dolt_obj` (middleware.py lines 169-173). -/
def change_msg_for_dolt_obj (inst : Instance) (kw : UpdateKwargs) : String :=
  let created := kw.created == some true
  let verb := if created then "Created" else "Updated"
  verb ++ " " ++ inst.verboseName ++ " \x22" ++ inst.str ++ "\x22 "

/-- Embeds `AutoDoltCommit._handle_update` (middleware.py lines 130-147). -/
def handle_update (s : AutoDoltCommit) (inst : Instance) (kw : UpdateKwargs) :
    AutoDoltCommit :=
  let s :=
    if inst.isDoltModel then
      { s with branch := DOLT_DEFAULT_BRANCH
               changes := s.changes ++ [change_msg_for_dolt_obj inst kw] }
    else s
  let s :=
    if inst.isObjectChange then { s with changes := s.changes ++ [inst.str] }
    else s
  if kw.created.isSome then { s with commit := true }
  else if (kw.action == some "post_add" || kw.action == some "post_remove")
      && !kw.pkSet.isEmpty then
    { s with commit := true }
  else s

/-- Embeds `AutoDoltCommit._handle_delete` (middleware.py lines 149-153). -/
def handle_delete (s : AutoDoltCommit) (_inst : Instance) : AutoDoltCommit :=
  { s with commit := true }

/-- One signal delivery observed during the unit of work. -/
inductive Event where
  | update (inst : Instance) (kw : UpdateKwargs)
  | delete (inst : Instance)
  deriving Repr, DecidableEq

/-- Dispatch one signal to the connected receiver. -/
def applyEvent (s : AutoDoltCommit) : Event → AutoDoltCommit
  | .update inst kw => handle_update s inst kw
  | .delete inst => handle_delete s inst

/-- Run the unit of work: fold the observed signal deliveries over the
state, starting from the state `__enter__` left behind. -/
def processEvents (s : AutoDoltCommit) (evs : List Event) : AutoDoltCommit :=
  evs.foldl applyEvent s

/-- Embeds `AutoDoltCommit._get_commit_message` (middleware.py lines 162-167). -/
def get_commit_message (s : AutoDoltCommit) : String :=
  if !s.changes.isEmpty then String.intercalate "; " s.changes
  else if !s.instances.isEmpty then String.intercalate "; " s.instances
  else "auto dolt commit"

/-- The record `AutoDoltCommit._commit` (middleware.py lines 155-160)
hands to `Commit(message=msg).save(branch=..., user=...)`. -/
structure CommitRecord where
  message : String
  branch : String
  user : String
  deriving Repr, DecidableEq

/-- Observable outcome of `AutoDoltCommit.__exit__`: the dolt commits it
issued, whether it reached the three `disconnect` calls, and whether an
exception escaped from `__exit__` itself. -/
structure ExitOutcome where
  commits : List CommitRecord
  disconnected : Bool
  exitRaised : Bool
  deriving Repr, DecidableEq

/-- Embeds `AutoDoltCommit.__exit__` (middleware.py lines 116-128). `excInfo` is
the `(type, value, traceback)` argument (ignored by the source);
`commitRaises` says whether the engine-level `dolt_commit` call inside
`self._commit()` fails, in which case its exception escapes before the
`disconnect` lines run. The health-check early return (lines 117-119)
happens before both the commit and the disconnects. -/
def autoExit (s : AutoDoltCommit) (excInfo : Option String)
    (commitRaises : Bool) : ExitOutcome :=
  let _ := excInfo
  if is_health_check s.request then
    { commits := [], disconnected := false, exitRaised := false }
  else if s.commit then
    if commitRaises then
      { commits := [], disconnected := false, exitRaised := true }
    else
      { commits := [⟨get_commit_message s, s.branch, s.request.user⟩],
        disconnected := true, exitRaised := false }
  else
    { commits := [], disconnected := true, exitRaised := false }

/-- Holds when an event sets `self.commit` in `_handle_update`/`_handle_delete`:
a post-write delivery (the `created` key present, whatever its value), an
m2m `post_add`/`post_remove` with a non-empty `pk_set`, or any delete. -/
def setsDirty : Event → Bool
  | .update _ kw =>
    kw.created.isSome
      || ((kw.action == some "post_add" || kw.action == some "post_remove")
          && !kw.pkSet.isEmpty)
  | .delete _ => true

/-- The change descriptions one event appends to `self.changes`. -/
def eventChanges : Event → List String
  | .update inst kw =>
    (if inst.isDoltModel then [change_msg_for_dolt_obj inst kw] else [])
      ++ (if inst.isObjectChange then [inst.str] else [])
  | .delete _ => []

/-! ### GlobalStateRouter (routers.py lines 11-68) -/

/-- The parts of a model class `db_for_write` inspects: its `__name__`
and its classifications `is_dolt_model(model)` / `is_versioned_model(model)`
(predicates defined outside the included sources, carried as flags). -/
structure DjangoModel where
  name : String
  isDoltModel : Bool
  isVersioned : Bool
  deriving Repr, DecidableEq

/-- Process/session context the router consults: the
`is_global_router_enabled()` feature flag and the engine function
`active_branch()`. -/
structure RouterCtx where
  enabled : Bool
  activeBranch : String
  deriving Repr, DecidableEq

/-- Embeds `GlobalStateRouter.branch_is_not_primary` (routers.py lines 66-68). -/
def branch_is_not_primary (ctx : RouterCtx) : Bool :=
  ctx.activeBranch != DOLT_DEFAULT_BRANCH

/-- The `DoltError` message raised by `db_for_write` (routers.py lines
52-59), with the literal text and interpolations of the f-string. -/
def routing_error_message (modelName branch : String) : String :=
  "Error writing model <strong>" ++ modelName ++ "</strong> \n"
    ++ "                        on branch <strong>\x22" ++ branch ++ "\x22</strong>: \n"
    ++ "                        non-versioned models must be written on branch \n"
    ++ "                        <strong>\x22" ++ DOLT_DEFAULT_BRANCH ++ "\x22</strong>."

/-- Embeds `GlobalStateRouter.db_for_write` (routers.py lines 32-61):
`.ok none` is Python `None` (no routing opinion), `.ok (some db)` routes
to connection `db`, `.error msg` is a raised `DoltError msg`. -/
def db_for_write (ctx : RouterCtx) (model : DjangoModel) :
    Except String (Option String) :=
  if !ctx.enabled then .ok none
  else if model.isDoltModel then .ok (some GLOBAL_DB)
  else if model.isVersioned then .ok none
  else if branch_is_not_primary ctx then
    .error (routing_error_message model.name ctx.activeBranch)
  else .ok (some GLOBAL_DB)

/-- Embeds `GlobalStateRouter.db_for_read` (routers.py lines 18-30). -/
def db_for_read (ctx : RouterCtx) (model : DjangoModel) : Option String :=
  if !ctx.enabled then none
  else if model.isVersioned then none
  else some GLOBAL_DB

/-! ### Diff engine (diffs.py lines 21-140) -/

/-- A Django `ContentType` row together with the information the diff
engine derives from it: whether `ct.model_class()` resolves and whether
`diff_table_for_model` has a registration for it. -/
structure ContentType where
  appLabel : String
  model : String
  hasModelClass : Bool
  registered : Bool
  /-- Value of `DiffModelFactory(ct).source_model_verbose_name`. -/
  verboseName : String
  deriving Repr, DecidableEq

/-- One row of a `dolt_commit_diff_<table>` system table. A removed row
has no `to_id`; an added row has no `from_id`. -/
structure DiffRow where
  fromCommit : String
  toCommit : String
  fromId : Option Nat
  toId : Option Nat
  diffType : String
  deriving Repr, DecidableEq

/-- An entity row as stored in a model's table, reduced to the primary
key (the only field the proved properties inspect). -/
structure EntityRow where
  pk : Nat
  deriving Repr, DecidableEq

/-- The database as the diff engine sees it: the content-type registry
(`ContentType.objects.all()`, in iteration order), the per-type
`dolt_commit_diff_<table>` contents, and the per-type entity table as of a
given commit (time-travel read via `db_for_commit`). -/
structure Database where
  contentTypes : List ContentType
  diffTable : ContentType → List DiffRow
  rowsAt : ContentType → String → List EntityRow

/-- The rows of the diff table of `ct` for one `(from_commit, to_commit)` pair:
the queryset `factory.get_model().objects.filter(from_commit=..., to_commit=...)`
and equally the `WHERE` clause of the per-type count query. -/
def diffsBetween (db : Database) (ct : ContentType) (f t : String) :
    List DiffRow :=
  (db.diffTable ct).filter (fun r => r.fromCommit == f && r.toCommit == t)

/-- A Python `filter(...)` object: a one-shot iterator holding the
elements not yet yielded. -/
structure PyFilterIter (α : Type) where
  remaining : List α

/-- Fully iterate a one-shot iterator, mapping each yielded element (the
semantics of a comprehension over it); returns the values produced and
the iterator, now exhausted. -/
def consumeAll {α β : Type} (it : PyFilterIter α) (f : α → β) :
    List β × PyFilterIter α :=
  (it.remaining.map f, ⟨[]⟩)

/-- Embeds `content_types_with_diffs` (diffs.py lines 99-127). The unioned count
query yields one `(app_label, model, count)` row per content type that
has a model class and a registered diff table; `nonempty` is the Python
`filter` iterator over the rows with nonzero count, and the two set
comprehensions on lines 125-126 each iterate it in turn — the first
consumes it, so the second yields nothing. The final
`ContentType.objects.filter(app_label__in=..., model__in=...)` runs over
all content types. -/
def content_types_with_diffs (db : Database) (f t : String) :
    List ContentType :=
  let res :=
    (db.contentTypes.filter (fun ct => ct.hasModelClass && ct.registered)).map
      (fun ct => (ct.appLabel, ct.model, (diffsBetween db ct f t).length))
  let nonempty : PyFilterIter (String × String × Nat) :=
    ⟨res.filter (fun tup => tup.2.2 != 0)⟩
  let appLabels := consumeAll nonempty (fun tup => tup.1)
  let models := consumeAll appLabels.2 (fun tup => tup.2.1)
  db.contentTypes.filter
    (fun ct => appLabels.1.contains ct.appLabel && models.1.contains ct.model)

/-- A row of a per-type diff result set, annotated with its `root` tag
(`"to"` rows are fetched as of `to_commit`, `"from"` rows as of
`from_commit`). -/
structure AnnotatedRow where
  pk : Nat
  root : String
  deriving Repr, DecidableEq

/-- One per-type entry of the list `two_dot_diffs` returns
(diffs.py lines 87-95). -/
structure DiffPackage where
  name : String
  rows : List AnnotatedRow
  added : Nat
  modified : Nat
  removed : Nat
  deriving Repr, DecidableEq

/-- Stable insertion of a row into a pk-sorted list: after every row with
a key less than or equal to its own, as the stable Python `sorted` orders
equal keys. -/
def insertByPk (x : AnnotatedRow) : List AnnotatedRow → List AnnotatedRow
  | [] => [x]
  | y :: ys => if x.pk < y.pk then x :: y :: ys else y :: insertByPk x ys

/-- Embeds `sorted(..., key=lambda d: d.pk)` (diffs.py line 82). -/
def sortByPk (l : List AnnotatedRow) : List AnnotatedRow :=
  l.foldl (fun acc x => insertByPk x acc) []

/-- The body of the `two_dot_diffs` loop (diffs.py lines 37-95) for one
content type: the `to` queryset takes the rows as of `to_commit` whose pk
is among the `to_id` values of the diff rows, the `from` queryset takes the rows as
of `from_commit` whose pk is among the `from_id`s of the diff rows with
`diff_type = "removed"`; the merged list is sorted by pk, and an empty
merge yields no package (`continue`). -/
def process_content_type (db : Database) (f t : String) (ct : ContentType) :
    Option DiffPackage :=
  let diffs := diffsBetween db ct f t
  let toIds := diffs.filterMap (fun r => r.toId)
  let to_queryset :=
    ((db.rowsAt ct t).filter (fun row => toIds.contains row.pk)).map
      (fun row => AnnotatedRow.mk row.pk "to")
  let removedFromIds :=
    (diffs.filter (fun r => r.diffType == "removed")).filterMap
      (fun r => r.fromId)
  let from_queryset :=
    ((db.rowsAt ct f).filter (fun row => removedFromIds.contains row.pk)).map
      (fun row => AnnotatedRow.mk row.pk "from")
  let diff_rows := sortByPk (to_queryset ++ from_queryset)
  if diff_rows.isEmpty then none
  else
    some { name := ct.verboseName ++ " Diffs"
           rows := diff_rows
           added := (diffs.filter (fun r => r.diffType == "added")).length
           modified := (diffs.filter (fun r => r.diffType == "modified")).length
           removed := (diffs.filter (fun r => r.diffType == "removed")).length }

/-- The `two_dot_diffs` loop over a given enumeration of content types. -/
def two_dot_diffs_over (db : Database) (f t : String)
    (cts : List ContentType) : List DiffPackage :=
  cts.filterMap (process_content_type db f t)

/-- Embeds `two_dot_diffs` (diffs.py lines 29-96): the guard of lines 31-32
(`ValueError` when either commit is unset), then the loop over
`content_types_with_diffs`. -/
def two_dot_diffs (db : Database) (f t : Option String) :
    Except String (List DiffPackage) :=
  match f, t with
  | some f, some t => .ok (two_dot_diffs_over db f t (content_types_with_diffs db f t))
  | _, _ => .error "must specify both a to_commit and from_commit"

/-! ### Invariants of the event fold -/

/-- One signal delivery never touches `self.request`. -/
theorem applyEvent_request (s : AutoDoltCommit) (e : Event) :
    (applyEvent s e).request = s.request := by
  cases e with
  | update inst kw =>
    simp only [applyEvent, handle_update]
    split_ifs <;> rfl
  | delete inst => rfl

/-- One signal delivery never touches `self.instances`. -/
theorem applyEvent_instances (s : AutoDoltCommit) (e : Event) :
    (applyEvent s e).instances = s.instances := by
  cases e with
  | update inst kw =>
    simp only [applyEvent, handle_update]
    split_ifs <;> rfl
  | delete inst => rfl

/-- One signal delivery ors `setsDirty` into `self.commit`. -/
theorem applyEvent_commit (s : AutoDoltCommit) (e : Event) :
    (applyEvent s e).commit = (s.commit || setsDirty e) := by
  cases e with
  | update inst kw =>
    simp only [applyEvent, handle_update, setsDirty]
    split_ifs <;> simp_all
  | delete inst => simp [applyEvent, handle_delete, setsDirty]

/-- One signal delivery appends exactly `eventChanges e` to `self.changes`. -/
theorem applyEvent_changes (s : AutoDoltCommit) (e : Event) :
    (applyEvent s e).changes = s.changes ++ eventChanges e := by
  cases e with
  | update inst kw =>
    simp only [applyEvent, handle_update, eventChanges]
    split_ifs <;> simp_all
  | delete inst => simp [applyEvent, handle_delete, eventChanges]

/-- Running the unit of work never touches `self.request`. -/
theorem processEvents_request (s : AutoDoltCommit) (evs : List Event) :
    (processEvents s evs).request = s.request := by
  induction evs generalizing s with
  | nil => rfl
  | cons e evs ih =>
    simp only [processEvents, List.foldl_cons] at *
    rw [ih, applyEvent_request]

/-- Running the unit of work never touches `self.instances`. -/
theorem processEvents_instances (s : AutoDoltCommit) (evs : List Event) :
    (processEvents s evs).instances = s.instances := by
  induction evs generalizing s with
  | nil => rfl
  | cons e evs ih =>
    simp only [processEvents, List.foldl_cons] at *
    rw [ih, applyEvent_instances]

/-- After the unit of work, `self.commit` holds exactly when it held
before or some observed event set it. -/
theorem processEvents_commit (s : AutoDoltCommit) (evs : List Event) :
    (processEvents s evs).commit = (s.commit || evs.any setsDirty) := by
  induction evs generalizing s with
  | nil => simp [processEvents]
  | cons e evs ih =>
    simp only [processEvents, List.foldl_cons, List.any_cons] at *
    rw [ih, applyEvent_commit, Bool.or_assoc]

/-- After the unit of work, `self.changes` holds the descriptions of the
observed events, appended in event order. -/
theorem processEvents_changes (s : AutoDoltCommit) (evs : List Event) :
    (processEvents s evs).changes = s.changes ++ evs.flatMap eventChanges := by
  induction evs generalizing s with
  | nil => simp [processEvents]
  | cons e evs ih =>
    simp only [processEvents, List.foldl_cons, List.flatMap_cons] at *
    rw [ih, applyEvent_changes, List.append_assoc]

/-! ### Facts about the stable pk sort -/

/-- Inserting permutes: the result holds the new row and the old ones. -/
theorem insertByPk_perm (x : AnnotatedRow) (l : List AnnotatedRow) :
    List.Perm (insertByPk x l) (x :: l) := by
  induction l with
  | nil => simp [insertByPk]
  | cons y ys ih =>
    simp only [insertByPk]
    split_ifs with h
    · exact List.Perm.refl _
    · exact (List.Perm.cons y ih).trans (List.Perm.swap x y ys)

/-- Members of an insertion are the new row or old members. -/
theorem mem_insertByPk {z x : AnnotatedRow} {l : List AnnotatedRow}
    (h : z ∈ insertByPk x l) : z = x ∨ z ∈ l :=
  List.mem_cons.mp ((insertByPk_perm x l).mem_iff.mp h)

/-- Inserting into a pk-sorted list keeps it pk-sorted. -/
theorem insertByPk_sorted {x : AnnotatedRow} {l : List AnnotatedRow}
    (h : l.Pairwise (fun a b => a.pk ≤ b.pk)) :
    (insertByPk x l).Pairwise (fun a b => a.pk ≤ b.pk) := by
  induction l with
  | nil => simp [insertByPk]
  | cons y ys ih =>
    rw [List.pairwise_cons] at h
    simp only [insertByPk]
    split_ifs with hlt
    · rw [List.pairwise_cons]
      refine ⟨?_, List.pairwise_cons.mpr h⟩
      intro z hz
      rcases List.mem_cons.mp hz with rfl | hz
      · exact le_of_lt hlt
      · exact le_of_lt (lt_of_lt_of_le hlt (h.1 z hz))
    · rw [List.pairwise_cons]
      refine ⟨?_, ih h.2⟩
      intro z hz
      rcases mem_insertByPk hz with rfl | hz
      · exact le_of_not_lt hlt
      · exact h.1 z hz

/-- Folding insertions starting from `acc` yields a permutation of
`acc ++ l`. -/
theorem foldl_insertByPk_perm (l acc : List AnnotatedRow) :
    List.Perm (l.foldl (fun acc x => insertByPk x acc) acc) (acc ++ l) := by
  induction l generalizing acc with
  | nil => simp
  | cons x xs ih =>
    have h1 := ih (insertByPk x acc)
    have h2 := (insertByPk_perm x acc).append_right xs
    simpa using h1.trans (h2.trans List.perm_middle.symm)

/-- The sort is a permutation of its input. -/
theorem sortByPk_perm (l : List AnnotatedRow) : List.Perm (sortByPk l) l := by
  simpa using foldl_insertByPk_perm l []

/-- Folding insertions preserves pk-sortedness of the accumulator. -/
theorem foldl_insertByPk_sorted (l : List AnnotatedRow)
    (acc : List AnnotatedRow) (h : acc.Pairwise (fun a b => a.pk ≤ b.pk)) :
    (l.foldl (fun acc x => insertByPk x acc) acc).Pairwise
      (fun a b => a.pk ≤ b.pk) := by
  induction l generalizing acc with
  | nil => exact h
  | cons x xs ih => exact ih (insertByPk x acc) (insertByPk_sorted h)

/-- The sort output is ascending in primary key. -/
theorem sortByPk_sorted (l : List AnnotatedRow) :
    (sortByPk l).Pairwise (fun a b => a.pk ≤ b.pk) :=
  foldl_insertByPk_sorted l [] (List.Pairwise.nil)

/-- Rows fetched on the `to` side all carry the root tag `"to"`, so none
survives the `root = "from"` filter. -/
theorem filter_from_of_to_rows (l : List EntityRow) :
    ((l.map (fun row => AnnotatedRow.mk row.pk "to")).filter
      (fun row => row.root == "from")) = [] := by
  induction l with
  | nil => rfl
  | cons r rs ih => simp [List.filter_cons, ih]

/-- Rows fetched on the `from` side all survive the `root = "from"` filter. -/
theorem filter_from_of_from_rows (l : List EntityRow) :
    ((l.map (fun row => AnnotatedRow.mk row.pk "from")).filter
      (fun row => row.root == "from"))
      = l.map (fun row => AnnotatedRow.mk row.pk "from") := by
  induction l with
  | nil => rfl
  | cons r rs ih => simp [List.filter_cons, ih]

/-! ### Sample data for concrete instantiations -/

/-- Sample ordinary (non-health-check) request. -/
def reqPlain : Request :=
  { path := "/dcim/devices/", sessionBranch := none, headerBranch := none,
    user := "alice" }

/-- Sample health-check probe request (its path contains "/health"). -/
def reqHealth : Request :=
  { path := "/health/", sessionBranch := none, headerBranch := none,
    user := "probe" }

/-- Sample request whose session asks for a branch that is absent from
the branch table used alongside it. -/
def reqUnknownBranch : Request :=
  { path := "/dcim/devices/", sessionBranch := some "unknown",
    headerBranch := none, user := "alice" }

/-- Sample ordinary model instance: neither a dolt-plugin object nor an
`ObjectChange`. -/
def instPlain : Instance :=
  { isDoltModel := false, isObjectChange := false, str := "device1",
    verboseName := "device" }

/-- Sample delete-signal delivery. -/
def evDelete : Event := Event.delete instPlain

/-- Sample non-versioned, non-dolt model class. -/
def mTag : DjangoModel :=
  { name := "Tag", isDoltModel := false, isVersioned := false }

/-- Router context on a feature branch with the router enabled. -/
def ctxFeature : RouterCtx := { enabled := true, activeBranch := "feature" }

/-- Router context on the primary branch with the router enabled. -/
def ctxMain : RouterCtx := { enabled := true, activeBranch := "main" }

/-- Sample content type with a registered diff table. -/
def ctDevice : ContentType :=
  { appLabel := "dcim", model := "device", hasModelClass := true,
    registered := true, verboseName := "device" }

/-- Sample diff table row: the entity with pk 1 was removed between the
commits `"h1"` and `"h2"`. -/
def rowRemoved : DiffRow :=
  { fromCommit := "h1", toCommit := "h2", fromId := some 1, toId := none,
    diffType := "removed" }

/-- Sample database: one registered content type whose diff table holds
one removed row between `"h1"` and `"h2"`; the entity table holds the
row with pk 1 as of `"h1"` and nothing as of `"h2"`. -/
def sampleDb : Database :=
  { contentTypes := [ctDevice]
    diffTable := fun _ => [rowRemoved]
    rowsAt := fun _ c => if c == "h1" then [{ pk := 1 }] else [] }

/-! ### Claim theorems -/

/-- C1 (counterexample): for a health-check probe request the scope exit
returns before the three signal `disconnect` calls, so the subscriptions
made on entry are not removed — refuting removal "in every case". Here a
health-check unit of work that even observed a mutation and completed
normally exits without reaching the disconnects. -/
theorem claim_C1_counterexample :
    (autoExit
      (processEvents (AutoDoltCommit.init reqHealth "main") [evDelete])
      none false).disconnected = false := by decide

/-- C1 (amended): the three signal subscriptions made on entry are
removed when the scope exits — whether the unit of work completed
normally or raised (the exception arguments of the exit hook are
ignored), provided the commit invocation itself does not raise — except
for health-check probe requests, where the early return skips the
unsubscription. -/
theorem claim_C1_unsubscribe_except_health_check
    (s : AutoDoltCommit) (excInfo : Option String) :
    (autoExit s excInfo false).disconnected = !(is_health_check s.request) := by
  simp only [autoExit]
  split_ifs <;> simp_all

/-- C2 (counterexample): a post-write event whose `created` flag is
false (i.e. an update) does not qualify in the sense of the claim — the
created flag is not true and no keys were added or removed — yet it sets
the dirty flag, because the source tests `"created" in kwargs` (key
presence), not the value of the flag. -/
theorem claim_C2_counterexample :
    (handle_update (AutoDoltCommit.init reqPlain "main") instPlain
        { created := some false, action := none, pkSet := [] }).commit = true
    ∧ ¬((some false : Option Bool) = some true ∨ ([] : List Nat) ≠ []) := by
  decide

/-- C2 (amended): a post-write or m2m event sets the dirty flag exactly
when the `created` key is present (creates and updates alike) or the
action is `post_add`/`post_remove` with a non-empty affected-key set;
and it appends change descriptions exactly for dolt-plugin objects and
`ObjectChange` instances, independently of whether the flag is set. -/
theorem claim_C2_dirty_flag_and_descriptions (s : AutoDoltCommit)
    (inst : Instance) (kw : UpdateKwargs) :
    (handle_update s inst kw).commit
      = (s.commit || setsDirty (Event.update inst kw))
    ∧ (handle_update s inst kw).changes
      = s.changes ++ eventChanges (Event.update inst kw) :=
  ⟨applyEvent_commit s (Event.update inst kw),
   applyEvent_changes s (Event.update inst kw)⟩

/-- C6: a health-check probe request never issues a commit on exit, even
when the dirty flag was set by observed mutations. -/
theorem claim_C6_health_check_never_commits (s : AutoDoltCommit)
    (excInfo : Option String) (commitRaises : Bool)
    (h : is_health_check s.request = true) :
    (autoExit s excInfo commitRaises).commits = [] := by
  simp [autoExit, h]

/-- C6 (witness): a concrete dirty health-check state issues no commit. -/
theorem claim_C6_witness :
    (autoExit
      { request := reqHealth, branch := "main", commit := true,
        changes := ["some change"], instances := [] }
      none false).commits = [] :=
  claim_C6_health_check_never_commits _ none false (by decide)

/-- C10: the instances list is empty at every point of every unit of
work — no signal handler appends to it — so the message-synthesis branch
joining instance string representations is unreachable, and a unit of
work that recorded no change descriptions synthesises exactly the
message "auto dolt commit". -/
theorem claim_C10_instances_never_populated (r : Request) (b : String)
    (evs : List Event) :
    (processEvents (AutoDoltCommit.init r b) evs).instances = []
    ∧ ((processEvents (AutoDoltCommit.init r b) evs).changes = [] →
        get_commit_message (processEvents (AutoDoltCommit.init r b) evs)
          = "auto dolt commit") := by
  have hi : (processEvents (AutoDoltCommit.init r b) evs).instances = [] := by
    rw [processEvents_instances]; rfl
  refine ⟨hi, fun hc => ?_⟩
  simp [get_commit_message, hi, hc]

/-- C10 (witness): a concrete unit of work (one delete event, which
records no description) has an empty instances list and falls back to
the fixed message. -/
theorem claim_C10_witness :
    (processEvents (AutoDoltCommit.init reqPlain "main") [evDelete]).instances = []
    ∧ get_commit_message
        (processEvents (AutoDoltCommit.init reqPlain "main") [evDelete])
        = "auto dolt commit" :=
  ⟨(claim_C10_instances_never_populated reqPlain "main" [evDelete]).1,
   (claim_C10_instances_never_populated reqPlain "main" [evDelete]).2 (by decide)⟩

/-- C4: for a non-health-check unit of work, zero dirty-setting events
issue zero commits; at least one dirty-setting event issues exactly one
commit, whose message is the "; "-join of the change descriptions
recorded in event order, falling back to "auto dolt commit" when no
description was recorded (the instances list is never populated, see the
C10 theorem). -/
theorem claim_C4_commit_count_and_message (r : Request) (b : String)
    (evs : List Event) (excInfo : Option String)
    (hh : is_health_check r = false) :
    (evs.any setsDirty = false →
      (autoExit (processEvents (AutoDoltCommit.init r b) evs) excInfo
        false).commits = [])
    ∧ (evs.any setsDirty = true →
      ∃ c, (autoExit (processEvents (AutoDoltCommit.init r b) evs) excInfo
          false).commits = [c]
        ∧ c.message
            = (if (evs.flatMap eventChanges).isEmpty then "auto dolt commit"
               else String.intercalate "; " (evs.flatMap eventChanges))) := by
  have hreq : (processEvents (AutoDoltCommit.init r b) evs).request = r := by
    rw [processEvents_request]; rfl
  have hcom : (processEvents (AutoDoltCommit.init r b) evs).commit
      = evs.any setsDirty := by
    rw [processEvents_commit]; rfl
  have hch : (processEvents (AutoDoltCommit.init r b) evs).changes
      = evs.flatMap eventChanges := by
    rw [processEvents_changes]; rfl
  have hin : (processEvents (AutoDoltCommit.init r b) evs).instances = [] := by
    rw [processEvents_instances]; rfl
  constructor
  · intro h0
    simp [autoExit, hreq, hh, hcom, h0]
  · intro h1
    refine ⟨⟨get_commit_message (processEvents (AutoDoltCommit.init r b) evs),
        (processEvents (AutoDoltCommit.init r b) evs).branch, r.user⟩, ?_, ?_⟩
    · simp [autoExit, hreq, hh, hcom, h1]
    · show get_commit_message _ = _
      cases hempty : (evs.flatMap eventChanges).isEmpty with
      | true =>
        have : evs.flatMap eventChanges = [] := by
          simpa using hempty
        simp [get_commit_message, hch, hin, this]
      | false =>
        simp [get_commit_message, hch, hin, hempty]

/-- C4 (witness): a concrete unit of work with one dirty-setting event
issues exactly one commit. -/
theorem claim_C4_witness :
    (autoExit (processEvents (AutoDoltCommit.init reqPlain "main") [evDelete])
      none false).commits.length = 1 := by
  obtain ⟨c, hc, -⟩ :=
    (claim_C4_commit_count_and_message reqPlain "main" [evDelete] none
      (by decide)).2 (by decide)
  rw [hc]
  rfl

/-- C5: with the global router enabled, a write of a non-versioned,
non-dolt model raises a `DoltError` whose message names both the model
and the active branch whenever the active branch differs from the
primary branch, and routes to the global connection without raising when
the active branch is the primary branch. -/
theorem claim_C5_router_write_policy (ctx : RouterCtx) (model : DjangoModel)
    (hen : ctx.enabled = true) (hd : model.isDoltModel = false)
    (hv : model.isVersioned = false) :
    (ctx.activeBranch ≠ DOLT_DEFAULT_BRANCH →
      db_for_write ctx model
          = Except.error (routing_error_message model.name ctx.activeBranch)
      ∧ (∃ p q, routing_error_message model.name ctx.activeBranch
          = p ++ model.name ++ q)
      ∧ (∃ p q, routing_error_message model.name ctx.activeBranch
          = p ++ ctx.activeBranch ++ q))
    ∧ (ctx.activeBranch = DOLT_DEFAULT_BRANCH →
      db_for_write ctx model = Except.ok (some GLOBAL_DB)) := by
  constructor
  · intro hne
    refine ⟨?_, ?_, ?_⟩
    · simp [db_for_write, branch_is_not_primary, hen, hd, hv, hne]
    · exact ⟨"Error writing model <strong>",
        "</strong> \n                        on branch <strong>\x22"
          ++ ctx.activeBranch
          ++ "\x22</strong>: \n                        non-versioned models must be written on branch \n                        <strong>\x22"
          ++ DOLT_DEFAULT_BRANCH ++ "\x22</strong>.",
        by simp [routing_error_message, String.append_assoc]⟩
    · exact ⟨"Error writing model <strong>" ++ model.name
          ++ "</strong> \n                        on branch <strong>\x22",
        "\x22</strong>: \n                        non-versioned models must be written on branch \n                        <strong>\x22"
          ++ DOLT_DEFAULT_BRANCH ++ "\x22</strong>.",
        by simp [routing_error_message, String.append_assoc]⟩
  · intro heq
    simp [db_for_write, branch_is_not_primary, hen, hd, hv, heq]

/-- C5 (witness): the concrete non-versioned model written on a feature
branch raises the formatted error; the same write on the primary branch
routes to the global connection. -/
theorem claim_C5_witness :
    db_for_write ctxFeature mTag
      = Except.error (routing_error_message mTag.name ctxFeature.activeBranch)
    ∧ db_for_write ctxMain mTag = Except.ok (some GLOBAL_DB) :=
  ⟨((claim_C5_router_write_policy ctxFeature mTag rfl rfl rfl).1
      (by decide)).1,
   (claim_C5_router_write_policy ctxMain mTag rfl rfl rfl).2 rfl⟩

/-- C7 (counterexample): when the branch table does not hold the default
branch (here: an empty table), resolving an absent branch name raises
`ObjectDoesNotExist` from the fallback lookup instead of falling back
without raising. -/
theorem claim_C7_counterexample :
    "feature" ∉ ([] : List String)
    ∧ get_branch []
        { path := "/dcim/devices/", sessionBranch := some "feature",
          headerBranch := none, user := "alice" }
        = GetBranchResult.raised "ObjectDoesNotExist" := by
  decide

/-- C7 (amended): branch resolution reads the session entry first, then
the request header, and defaults to the primary branch name when neither
is set; and when the requested branch is absent from the branch table —
provided the default branch itself is present in it — resolution falls
back to the default branch, surfaces a branch-not-found warning and pins
the session, without raising. -/
theorem claim_C7_branch_resolution (r : Request) (table : List String)
    (hdef : table.contains DOLT_DEFAULT_BRANCH = true)
    (hmiss : table.contains (branch_from_request r) = false) :
    (∀ (q : Request) (bs : String), q.sessionBranch = some bs →
        branch_from_request q = bs)
    ∧ (∀ (q : Request) (bh : String), q.sessionBranch = none →
        q.headerBranch = some bh → branch_from_request q = bh)
    ∧ (∀ (q : Request), q.sessionBranch = none → q.headerBranch = none →
        branch_from_request q = DOLT_DEFAULT_BRANCH)
    ∧ get_branch table r
        = GetBranchResult.ok DOLT_DEFAULT_BRANCH
            ["<div class=\x22text-center\x22>branch not found: "
              ++ branch_from_request r ++ "</div>"]
            { r with sessionBranch := some DOLT_DEFAULT_BRANCH } := by
  refine ⟨?_, ?_, ?_, ?_⟩
  · intro q bs hq
    simp [branch_from_request, hq]
  · intro q bh hq hh
    simp [branch_from_request, hq, hh]
  · intro q hq hh
    simp [branch_from_request, hq, hh]
  · have h1 : branch_from_request r ∉ table := by simpa using hmiss
    have h2 : DOLT_DEFAULT_BRANCH ∈ table := by simpa using hdef
    simp [get_branch, branchObjectsGet, h1, h2]

/-- C7 (witness): resolving a concrete absent branch against a table
holding only the default branch falls back with a warning. -/
theorem claim_C7_witness :
    get_branch ["main"] reqUnknownBranch
      = GetBranchResult.ok DOLT_DEFAULT_BRANCH
          ["<div class=\x22text-center\x22>branch not found: "
            ++ branch_from_request reqUnknownBranch ++ "</div>"]
          { reqUnknownBranch with sessionBranch := some DOLT_DEFAULT_BRANCH } :=
  (claim_C7_branch_resolution reqUnknownBranch ["main"] (by decide)
    (by decide)).2.2.2

/-- C3: evaluation at the failing input. The single registered content
type has one changed row between the commits, yet the enumeration
returns no content type at all: the `filter` iterator over the nonzero
count rows is exhausted by the first set comprehension (the app labels),
so the second (the models) yields the empty set and the final queryset
filter matches nothing. -/
theorem claim_C3_enumeration_empty_despite_nonzero_count :
    (diffsBetween sampleDb ctDevice "h1" "h2").length = 1
    ∧ ctDevice ∈ sampleDb.contentTypes
    ∧ ctDevice.hasModelClass = true
    ∧ ctDevice.registered = true
    ∧ content_types_with_diffs sampleDb "h1" "h2" = [] := by decide

/-- C8: every package the diff loop emits has its root="from" rows being
exactly (as a multiset) the as-of-from_commit entity rows whose primary
key occurs as a `from_id` of a diff row tagged `diff_type = "removed"`,
and its merged row list is ascending in primary key. -/
theorem claim_C8_from_rows_and_order (db : Database) (f t : String)
    (cts : List ContentType) (pkg : DiffPackage)
    (hpkg : pkg ∈ two_dot_diffs_over db f t cts) :
    pkg.rows.Pairwise (fun a b => a.pk ≤ b.pk)
    ∧ ∃ ct, ct ∈ cts ∧ process_content_type db f t ct = some pkg
      ∧ List.Perm
          (pkg.rows.filter (fun row => row.root == "from"))
          (((db.rowsAt ct f).filter (fun row =>
              (((diffsBetween db ct f t).filter
                  (fun dr => dr.diffType == "removed")).filterMap
                (fun dr => dr.fromId)).contains row.pk)).map
            (fun row => AnnotatedRow.mk row.pk "from")) := by
  obtain ⟨ct, hct, hproc⟩ := List.mem_filterMap.mp hpkg
  have hmain : pkg.rows = sortByPk
      ((((db.rowsAt ct t).filter (fun row =>
          ((diffsBetween db ct f t).filterMap (fun r => r.toId)).contains
            row.pk)).map (fun row => AnnotatedRow.mk row.pk "to"))
        ++ (((db.rowsAt ct f).filter (fun row =>
          (((diffsBetween db ct f t).filter
              (fun r => r.diffType == "removed")).filterMap
            (fun r => r.fromId)).contains row.pk)).map
          (fun row => AnnotatedRow.mk row.pk "from"))) := by
    simp only [process_content_type] at hproc
    split at hproc
    · exact absurd hproc (by simp)
    · injection hproc with h
      rw [← h]
  refine ⟨?_, ct, hct, hproc, ?_⟩
  · rw [hmain]
    exact sortByPk_sorted _
  · rw [hmain]
    refine List.Perm.trans
      ((sortByPk_perm _).filter (fun row => row.root == "from")) ?_
    rw [List.filter_append, filter_from_of_to_rows, filter_from_of_from_rows,
      List.nil_append]

/-- C8 (witness): the sample database with a content-type enumeration of
one registered type emits a package, so the hypotheses are satisfiable;
its merged row list is ascending in primary key. -/
theorem claim_C8_witness :
    ({ name := "device Diffs", rows := [{ pk := 1, root := "from" }],
       added := 0, modified := 0, removed := 1 } : DiffPackage).rows.Pairwise
      (fun a b => a.pk ≤ b.pk) :=
  (claim_C8_from_rows_and_order sampleDb "h1" "h2" [ctDevice]
    { name := "device Diffs", rows := [{ pk := 1, root := "from" }],
      added := 0, modified := 0, removed := 1 } (by decide)).1

/-- C9: a content type with a registry entry but zero diff rows between
the two commits yields no package: the loop body returns `none` for it,
and the emitted package list is unchanged when the type is dropped from
the enumeration, so the type is absent from the result entirely. -/
theorem claim_C9_zero_diff_rows_absent (db : Database) (f t : String)
    (ct : ContentType) (hreg : ct.registered = true)
    (h : diffsBetween db ct f t = []) :
    process_content_type db f t ct = none
    ∧ ∀ cts : List ContentType,
        two_dot_diffs_over db f t cts
          = two_dot_diffs_over db f t (cts.filter (fun c => !(c == ct))) := by
  have hnone : process_content_type db f t ct = none := by
    unfold process_content_type
    rw [h]
    simp [sortByPk]
  refine ⟨hnone, ?_⟩
  intro cts
  induction cts with
  | nil => rfl
  | cons c cs ih =>
    by_cases hc : c = ct
    · subst hc
      simp [two_dot_diffs_over, List.filter_cons, hnone, List.filterMap_cons]
        at ih ⊢
      exact ih
    · have hbeq : (c == ct) = false := by
        simpa using hc
      cases hp : process_content_type db f t c with
      | none =>
        simp [two_dot_diffs_over, List.filter_cons, hbeq, List.filterMap_cons,
          hp] at ih ⊢
        exact ih
      | some pkg =>
        simp [two_dot_diffs_over, List.filter_cons, hbeq, List.filterMap_cons,
          hp] at ih ⊢
        exact ih

/-- C9 (witness): between the reversed commit pair the sample type has
zero diff rows; it produces no package and dropping it from a concrete
enumeration leaves the (empty) result unchanged. -/
theorem claim_C9_witness :
    process_content_type sampleDb "h2" "h1" ctDevice = none
    ∧ two_dot_diffs_over sampleDb "h2" "h1" [ctDevice]
        = two_dot_diffs_over sampleDb "h2" "h1"
            ([ctDevice].filter (fun c => !(c == ctDevice))) :=
  ⟨(claim_C9_zero_diff_rows_absent sampleDb "h2" "h1" ctDevice (by decide)
      (by decide)).1,
   (claim_C9_zero_diff_rows_absent sampleDb "h2" "h1" ctDevice (by decide)
      (by decide)).2 [ctDevice]⟩

end Dolt
